import Mathlib

/-
Verification development for the FIA staged signal pipeline.

Shallow embedding conventions:
- Python floats are modelled as exact rationals; where the source takes a
  square root (standard deviations, annualized volatility), the value lives
  in the reals via Real.sqrt and the surrounding definition is marked
  noncomputable.  All branch conditions of the source remain decidable
  rational or natural-number tests, so concrete inputs still evaluate.
- A pandas Series of closes is a List of rationals, most recent last.
  A rolling statistic whose window is not yet full is NaN in pandas; it is
  modelled as an Option that is none exactly when the window is short.
  A pandas comparison against NaN is False; the option comparison below
  mirrors that.
- Dict-shaped records are modelled as structures whose optional keys are
  Option fields (a missing key is none); dictionary reads with defaults
  (d.get(k, v)) become Option.getD.
- Python exceptions are modelled with Except; a function that catches them
  returns the value of the handler on the error branch.
- round(x, 3) and format strings use round-half-even on exact rationals.
- Timestamps (generated_at fields) and logging are external effects and are
  not part of the model.
-/

namespace Fia

/-! ## Numeric helpers shared by the pipeline -/

/-- Round-half-even (the rounding used by the Python built-in round):
nearest integer, ties to the even integer. -/
def roundHalfEven (x : ℚ) : ℤ :=
  if x - (Int.floor x : ℚ) < 1/2 then Int.floor x
  else if 1/2 < x - (Int.floor x : ℚ) then Int.floor x + 1
  else if 2 ∣ Int.floor x then Int.floor x else Int.floor x + 1

/-- Python round(x, 3). -/
def round3 (x : ℚ) : ℚ := (roundHalfEven (x * 1000) : ℚ) / 1000

/-- Mean of a list of rationals; the empty list yields 0 (the source never
takes the mean of an empty window on the paths modelled here). -/
def listMean (l : List ℚ) : ℚ := l.sum / l.length

/-- Population variance (ddof = 0), matching Series.std(ddof=0) squared. -/
def popVar (l : List ℚ) : ℚ :=
  (l.map (fun x => (x - listMean l) ^ 2)).sum / l.length

/-- Sample variance (ddof = 1), matching the pandas default std() squared. -/
def sampleVar (l : List ℚ) : ℚ :=
  (l.map (fun x => (x - listMean l) ^ 2)).sum / ((l.length : ℚ) - 1)

/-- The Python slice series[-k:]: with k = 0 the whole series, otherwise
the last k elements (or the whole series when it is shorter). -/
def pyLast (k : ℕ) (l : List ℚ) : List ℚ :=
  if k = 0 then l else l.drop (l.length - k)

/-! ## Reconciler (brains/reconcile/core.py, function reconcile)

The confidence path of reconcile: the weighted combination of the QB2
relevance score and the NB2 risk score, the two sequential clamping
tests, and the final round(float(confidence), 3).  The except-branch
default of 0.5 is unreachable in the model because both inputs are
already rationals (in the source both fields are typed floats). -/

/-- The value of the local variable confidence right before the return:
weighted combination first, then the two clamping tests, exactly as in
the source. -/
def reconcile_confidence_raw (relevance risk : ℚ) : ℚ :=
  let c := (0.6 : ℚ) * relevance + (0.4 : ℚ) * (1 - risk)
  let c := if c < 0 then 0 else c
  let c := if 1 < c then 1 else c
  c

/-- The confidence field of the returned ReconcileOutput:
round(confidence, 3). -/
def reconcile_confidence (relevance risk : ℚ) : ℚ :=
  round3 (reconcile_confidence_raw relevance risk)

/-- The clamp function as the specification words it. -/
def clamp01 (x : ℚ) : ℚ := if x < 0 then 0 else if 1 < x then 1 else x

lemma reconcile_confidence_raw_eq_clamp (relevance risk : ℚ) :
    reconcile_confidence_raw relevance risk
      = clamp01 ((0.6 : ℚ) * relevance + (0.4 : ℚ) * (1 - risk)) := by
  unfold reconcile_confidence_raw clamp01
  set c := (0.6 : ℚ) * relevance + (0.4 : ℚ) * (1 - risk) with hc
  by_cases h1 : c < 0
  · simp [h1]
  · by_cases h2 : 1 < c <;> simp [h1, h2]

lemma clamp01_nonneg (x : ℚ) : 0 ≤ clamp01 x := by
  unfold clamp01; split_ifs <;> linarith

lemma clamp01_le_one (x : ℚ) : clamp01 x ≤ 1 := by
  unfold clamp01; split_ifs <;> linarith

lemma roundHalfEven_cases (x : ℚ) :
    roundHalfEven x = Int.floor x ∨ roundHalfEven x = Int.floor x + 1 := by
  unfold roundHalfEven
  split_ifs <;> simp

lemma roundHalfEven_nonneg {x : ℚ} (hx : 0 ≤ x) : 0 ≤ roundHalfEven x := by
  have h0 : (0 : ℤ) ≤ Int.floor x := by
    exact Int.le_floor.mpr (by exact_mod_cast hx)
  rcases roundHalfEven_cases x with h | h <;> omega

lemma roundHalfEven_le {x : ℚ} {n : ℤ} (hx : x ≤ n) : roundHalfEven x ≤ n := by
  have hf : Int.floor x ≤ n := by
    have := Int.floor_le_floor (α := ℚ) hx
    simpa using this
  rcases lt_or_eq_of_le hf with hlt | heq
  · rcases roundHalfEven_cases x with h | h <;> omega
  · -- the floor equals n, so x = n exactly and the fractional part is 0
    have hxn : (Int.floor x : ℚ) ≤ x := Int.floor_le x
    have hfl : (Int.floor x : ℚ) = (n : ℚ) := by exact_mod_cast heq
    have hxeq : x = (n : ℚ) := le_antisymm hx (hfl ▸ hxn)
    have hfr : x - (Int.floor x : ℚ) < 1/2 := by
      rw [hfl, hxeq]; norm_num
    have : roundHalfEven x = Int.floor x := by
      unfold roundHalfEven
      rw [if_pos hfr]
    omega

lemma round3_nonneg {x : ℚ} (hx : 0 ≤ x) : 0 ≤ round3 x := by
  unfold round3
  have := roundHalfEven_nonneg (x := x * 1000) (by positivity)
  positivity

lemma round3_le_one {x : ℚ} (hx : x ≤ 1) : round3 x ≤ 1 := by
  unfold round3
  have h : roundHalfEven (x * 1000) ≤ (1000 : ℤ) :=
    roundHalfEven_le (by push_cast; linarith)
  rw [div_le_one (by norm_num)]
  exact_mod_cast h

/-- C1: the reconciler computes confidence as the clamp, after the
weighted combination, of 0.6 * relevance + 0.4 * (1 - risk); the returned
(3-decimal rounded) confidence always lies in [0,1] for inputs in [0,1];
and relevance = 0.8, risk = 0.2 gives exactly 0.80. -/
theorem C1_reconcile_confidence :
    (∀ relevance risk : ℚ, 0 ≤ relevance → relevance ≤ 1 → 0 ≤ risk → risk ≤ 1 →
      reconcile_confidence relevance risk
          = round3 (clamp01 ((0.6 : ℚ) * relevance + (0.4 : ℚ) * (1 - risk)))
        ∧ 0 ≤ reconcile_confidence relevance risk
        ∧ reconcile_confidence relevance risk ≤ 1)
    ∧ reconcile_confidence (8/10) (2/10) = 8/10 := by
  constructor
  · intro relevance risk _ _ _ _
    refine ⟨by rw [reconcile_confidence, reconcile_confidence_raw_eq_clamp], ?_, ?_⟩
    · exact round3_nonneg (by rw [reconcile_confidence_raw_eq_clamp]; exact clamp01_nonneg _)
    · exact round3_le_one (by rw [reconcile_confidence_raw_eq_clamp]; exact clamp01_le_one _)
  · norm_num [reconcile_confidence, reconcile_confidence_raw, round3, roundHalfEven]

/-- Witness for C1 at relevance = 1/2, risk = 1/2. -/
theorem C1_reconcile_confidence_witness :
    reconcile_confidence (1/2) (1/2)
        = round3 (clamp01 ((0.6 : ℚ) * (1/2) + (0.4 : ℚ) * (1 - 1/2)))
      ∧ 0 ≤ reconcile_confidence (1/2) (1/2)
      ∧ reconcile_confidence (1/2) (1/2) ≤ 1 :=
  C1_reconcile_confidence.1 (1/2) (1/2) (by norm_num) (by norm_num)
    (by norm_num) (by norm_num)

/-! ## QB1 Stage 1 signals (brains/qb1/core.py)

The fetch helpers (price history, realtime price, macro weight, news) are
external collaborators; build_stage1_signal consumes their results.  The
try-block of build_stage1_signal is modelled by an Except argument: an
error value is an unexpected exception raised inside the block, and the
except-branch produces the error-marker record. -/

/-- numpy sign on rationals. -/
def npSign (x : ℚ) : ℚ := if 0 < x then 1 else if x < 0 then -1 else 0

/-- Python format spec .2f on an exact rational (round-half-even to two
decimal places). -/
def fmt2 (q : ℚ) : String :=
  let r : ℤ := roundHalfEven (q * 100)
  let a : ℕ := r.natAbs
  let frac : ℕ := a % 100
  (if r < 0 then "-" else "") ++ toString (a / 100) ++ "." ++
    (if frac < 10 then "0" ++ toString frac else toString frac)

/-- The anomaly dict returned by compute_price_anomaly, as consumed by
build_stage1_signal (its numeric construction is modelled separately for
C4; here its fields are inputs). -/
structure Anomaly where
  z_score : ℚ
  volatility : ℚ
  n_points : ℕ
  deriving DecidableEq, Repr

/-- The news dict returned by detect_news_presence. -/
structure News where
  news_count : ℕ
  latest_titles : List String
  since_days : ℕ
  deriving DecidableEq, Repr

/-- The nb1 block attached by brains/nb1/core.py attach_nb1 (the drivers
sub-dict is flattened into fields). -/
structure NB1Block where
  summary : String
  tags : List String
  drivers_price_anomaly : ℚ
  drivers_macro_weight : ℚ
  drivers_news_count : ℕ
  drivers_volatility : Option ℚ
  narrative : String
  deriving DecidableEq, Repr

/-- A Stage 1 signal dict.  Keys that are present only on one of the two
branches of build_stage1_signal (normal vs error marker) are Option
fields; none is a missing key.  The generated_at timestamp is an external
effect and is not modelled. -/
structure Signal where
  ticker : String
  name : String
  anomaly : Option Anomaly
  realtime_price : Option ℚ
  macro_weight : Option ℚ
  news : Option News
  score : ℚ
  reason : Option String
  error : Option String
  nb1 : Option NB1Block
  deriving DecidableEq, Repr

/-- The data produced inside the try block of build_stage1_signal by the
four collaborator fetches. -/
structure FetchData where
  anomaly : Anomaly
  realtime : Option ℚ
  macro_w : ℚ
  news : News
  deriving DecidableEq, Repr

/-- The composite score of build_stage1_signal:
score = base * (1 + abs(macro)); score = score + news_count * 0.4 *
np.sign(base if base != 0 else 1.0). -/
def stage1_score (z macro_w : ℚ) (news_count : ℕ) : ℚ :=
  let base := z
  let score := base * (1 + |macro_w|)
  score + (news_count : ℚ) * (0.4 : ℚ) * npSign (if base ≠ 0 then base else 1)

/-- The reason string of build_stage1_signal: fragments for a large
z-score, for news presence and for a non-negligible macro weight, joined
with a semicolon separator, with a fixed fallback text. -/
def stage1_reason (z macro_w : ℚ) (news_count : ℕ) (z_threshold : ℚ) : String :=
  let parts : List String :=
    (if z_threshold ≤ |z| then ["price z=" ++ fmt2 z] else []) ++
    (if news_count ≠ 0 then [toString news_count ++ " recent news"] else []) ++
    (if (0.1 : ℚ) < |macro_w| then ["macro " ++ fmt2 macro_w] else [])
  if parts = [] then "no strong single reason" else String.intercalate "; " parts

/-- build_stage1_signal: on a normal fetch, assemble the signal dict with
the composite score and reason; on an unexpected exception, return the
error-marker dict carrying the ticker, the error string and score 0.0. -/
def build_stage1_signal (ticker name : String) (z_threshold : ℚ)
    (fetch : Except String FetchData) : Signal :=
  match fetch with
  | Except.error e =>
      { ticker := ticker, name := name, anomaly := none, realtime_price := none
        macro_weight := none, news := none, score := 0, reason := none
        error := some e, nb1 := none }
  | Except.ok d =>
      let z := d.anomaly.z_score
      { ticker := ticker, name := name, anomaly := some d.anomaly
        realtime_price := d.realtime, macro_weight := some d.macro_w
        news := some d.news
        score := stage1_score z d.macro_w d.news.news_count
        reason := some (stage1_reason z d.macro_w d.news.news_count z_threshold)
        error := none, nb1 := none }

/-! ## NB1 narrative attachment (brains/nb1/core.py) -/

def tag_for_zscore (z : ℚ) : String :=
  if 4 ≤ z then "extreme-up"
  else if 2 ≤ z then "strong-up"
  else if 1 ≤ z then "moderate-up"
  else if z ≤ -4 then "extreme-down"
  else if z ≤ -2 then "strong-down"
  else if z ≤ -1 then "moderate-down"
  else "neutral"

def tag_for_macro_weight (w : ℚ) : String :=
  if 1 < w then "macro-supportive"
  else if (0.2 : ℚ) < w then "macro-positive"
  else if w < -1 then "macro-headwind"
  else if w < -(0.2 : ℚ) then "macro-negative"
  else "macro-neutral"

def tag_for_news (count : ℕ) : String :=
  if 5 ≤ count then "heavy-news"
  else if 2 ≤ count then "moderate-news"
  else if count = 1 then "single-news"
  else "no-news"

/-- attach_nb1: read the drivers out of the signal dict (with the neutral
defaults of dict.get), build tags, summary and narrative, and set the
single key nb1.  All other keys of the signal are untouched. -/
def attach_nb1 (signal : Signal) : Signal :=
  let z : ℚ := (signal.anomaly.map Anomaly.z_score).getD 0
  let macro_w : ℚ := signal.macro_weight.getD 0
  let news_count : ℕ := (signal.news.map News.news_count).getD 0
  let tag_z := tag_for_zscore z
  let tags := [tag_z, tag_for_macro_weight macro_w, tag_for_news news_count]
  let direction := if 0 < z then "up" else "down"
  let summary := signal.ticker ++ " shows a " ++ direction ++
    "ward price anomaly (z=" ++ fmt2 z ++ ")."
  let sentence_1 := "The price action indicates a " ++
    (tag_z.replace "-" " ") ++ " movement, with a z-score of " ++ fmt2 z ++ "."
  let sentence_2a :=
    if macro_w ≠ 0 then
      if 0 < macro_w then
        "Macro conditions offer mild support (macro weight " ++ fmt2 macro_w ++ ")."
      else
        "Macro conditions are acting as a headwind (macro weight " ++ fmt2 macro_w ++ ")."
    else ""
  let sentence_2 :=
    if 0 < news_count then
      (if sentence_2a ≠ "" then sentence_2a ++ " " else "") ++
        "Recent news activity (" ++ toString news_count ++
        " items) may be influencing sentiment."
    else sentence_2a
  let narrative := (sentence_1 ++ " " ++ sentence_2).trim
  { signal with
    nb1 := some
      { summary := summary, tags := tags
        drivers_price_anomaly := z, drivers_macro_weight := macro_w
        drivers_news_count := news_count
        drivers_volatility := signal.anomaly.map Anomaly.volatility
        narrative := narrative } }

/-! ## run_qb1 scan loop (brains/qb1/core.py) -/

/-- A universe entry; an empty ticker models a falsy/missing ticker field
and is skipped by the loop. -/
structure Entry where
  ticker : String
  name : String
  deriving DecidableEq, Repr

/-- The scan loop of run_qb1: walk the universe, stop when a nonzero
dry_limit is reached, skip entries without a ticker, and append the
NB1-enriched signal of every processed entry. -/
def qb1_scan (fetch : String → Except String FetchData) (z_threshold : ℚ)
    (dry_limit : ℕ) : List Entry → ℕ → List Signal
  | [], _ => []
  | e :: rest, processed =>
      if dry_limit ≠ 0 ∧ dry_limit ≤ processed then []
      else if e.ticker = "" then qb1_scan fetch z_threshold dry_limit rest processed
      else
        attach_nb1 (build_stage1_signal e.ticker e.name z_threshold (fetch e.ticker)) ::
          qb1_scan fetch z_threshold dry_limit rest (processed + 1)

/-- run_qb1, reduced to its signal list and trigger list: signals from the
scan loop, triggers the signals whose absolute score reaches the
configured score threshold. -/
def run_qb1 (univ : List Entry) (fetch : String → Except String FetchData)
    (z_threshold score_threshold : ℚ) (dry_limit : ℕ) :
    List Signal × List Signal :=
  let signals := qb1_scan fetch z_threshold dry_limit univ 0
  (signals, signals.filter (fun s => score_threshold ≤ |s.score|))

/-! ## Theorems about the Stage 1 composite score -/

/-- C2: for every fetched input, the composite score of the built Stage 1
signal equals z_score * (1 + abs(macro_weight)) + news_count * 0.4 *
sign(z_score) with sign defaulting to +1 at z_score = 0; and the inputs
z_score = 3.0, macro_weight = 0.5, news_count = 2 give score 5.3. -/
theorem C2_composite_score :
    (∀ (t n : String) (zthr : ℚ) (d : FetchData),
      (build_stage1_signal t n zthr (Except.ok d)).score
        = d.anomaly.z_score * (1 + |d.macro_w|)
          + (d.news.news_count : ℚ) * (0.4 : ℚ)
            * (if d.anomaly.z_score = 0 then 1 else npSign d.anomaly.z_score))
    ∧ (build_stage1_signal "AAPL" "" 2 (Except.ok
        { anomaly := { z_score := 3, volatility := 0, n_points := 10 }
          realtime := none, macro_w := 1/2
          news := { news_count := 2, latest_titles := [], since_days := 3 } })).score
      = 53/10 := by
  constructor
  · intro t n zthr d
    by_cases hz : d.anomaly.z_score = 0 <;>
      simp [build_stage1_signal, stage1_score, npSign, hz]
  · show stage1_score 3 (1/2) 2 = 53/10
    unfold stage1_score npSign
    rw [show |(1 : ℚ)/2| = 1/2 from abs_of_nonneg (by norm_num)]
    norm_num

lemma abs_stage1_score (z m : ℚ) (n : ℕ) :
    |stage1_score z m n| = |z| * (1 + |m|) + (n : ℚ) * (0.4 : ℚ) := by
  have hm : (0 : ℚ) < 1 + |m| := by positivity
  have hn : (0 : ℚ) ≤ (n : ℚ) := Nat.cast_nonneg n
  rcases lt_trichotomy z 0 with hz | hz | hz
  · have hs : stage1_score z m n = z * (1 + |m|) - (n : ℚ) * (0.4 : ℚ) := by
      simp only [stage1_score, npSign]
      rw [if_pos (show z ≠ 0 from ne_of_lt hz), if_neg (lt_asymm hz), if_pos hz]
      ring
    rw [hs, abs_of_nonpos (by nlinarith), abs_of_neg hz]
    ring
  · subst hz
    simp only [stage1_score, npSign]
    norm_num
  · have hs : stage1_score z m n = z * (1 + |m|) + (n : ℚ) * (0.4 : ℚ) := by
      simp only [stage1_score, npSign]
      rw [if_pos (show z ≠ 0 from ne_of_gt hz), if_pos hz]
      ring
    rw [hs, abs_of_nonneg (by nlinarith), abs_of_pos hz]

/-- C8: with macro weight and news count fixed, the absolute composite
score is monotone in the absolute z-score. -/
theorem C8_score_monotone (m : ℚ) (n : ℕ) (z1 z2 : ℚ) (h : |z1| ≤ |z2|) :
    |stage1_score z1 m n| ≤ |stage1_score z2 m n| := by
  rw [abs_stage1_score, abs_stage1_score]
  have hm : (0 : ℚ) ≤ 1 + |m| := by positivity
  nlinarith [abs_nonneg z1]

/-- Witness for C8 at z1 = 1, z2 = -3, macro 1/2, news 2. -/
theorem C8_score_monotone_witness :
    |stage1_score 1 (1/2) 2| ≤ |stage1_score (-3) (1/2) 2| :=
  C8_score_monotone (1/2) 2 1 (-3) (by norm_num)

/-! ## Theorems about error isolation in the scan (C7) -/

lemma qb1_scan_no_limit (fetch : String → Except String FetchData)
    (z_threshold : ℚ) (l : List Entry) (p : ℕ) :
    qb1_scan fetch z_threshold 0 l p
      = (l.filter (fun e => e.ticker ≠ "")).map
          (fun e => attach_nb1
            (build_stage1_signal e.ticker e.name z_threshold (fetch e.ticker))) := by
  induction l generalizing p with
  | nil => simp [qb1_scan]
  | cons e rest ih =>
      by_cases he : e.ticker = "" <;> simp [qb1_scan, he, ih]

/-- C7: with no dry limit, run_qb1 emits exactly one output signal per
universe entry that has a ticker, in order; and when the fetch work for a
ticker raises, the emitted record is the error marker carrying that
ticker, the error string and score 0.0 (the scan itself never shortens).
-/
theorem C7_error_isolation :
    (∀ (univ : List Entry) (fetch : String → Except String FetchData)
        (z_threshold score_threshold : ℚ),
      (run_qb1 univ fetch z_threshold score_threshold 0).1
        = (univ.filter (fun e => e.ticker ≠ "")).map
            (fun e => attach_nb1
              (build_stage1_signal e.ticker e.name z_threshold (fetch e.ticker))))
    ∧ (∀ (t n msg : String) (z_threshold : ℚ) (r : Except String FetchData),
        r = Except.error msg →
          (attach_nb1 (build_stage1_signal t n z_threshold r)).ticker = t
          ∧ (attach_nb1 (build_stage1_signal t n z_threshold r)).error = some msg
          ∧ (attach_nb1 (build_stage1_signal t n z_threshold r)).score = 0) := by
  constructor
  · intro univ fetch z_threshold score_threshold
    exact qb1_scan_no_limit fetch z_threshold univ 0
  · intro t n msg z_threshold r hr
    subst hr
    refine ⟨rfl, rfl, rfl⟩

/-- A fetch collaborator that always raises, for the C7 witness. -/
def c7fetch : String → Except String FetchData := fun _ => Except.error "boom"

/-- Witness for C7: a one-entry universe whose fetch always raises. -/
theorem C7_error_isolation_witness :
    (run_qb1 [Entry.mk "AAPL" ""] c7fetch 2 2 0).1
        = ([Entry.mk "AAPL" ""].filter (fun e => e.ticker ≠ "")).map
            (fun e => attach_nb1
              (build_stage1_signal e.ticker e.name 2 (c7fetch e.ticker)))
      ∧ ((attach_nb1 (build_stage1_signal "AAPL" "" 2 (Except.error "boom"))).ticker = "AAPL"
        ∧ (attach_nb1 (build_stage1_signal "AAPL" "" 2 (Except.error "boom"))).error = some "boom"
        ∧ (attach_nb1 (build_stage1_signal "AAPL" "" 2 (Except.error "boom"))).score = 0) :=
  ⟨C7_error_isolation.1 [Entry.mk "AAPL" ""] c7fetch 2 2,
   C7_error_isolation.2 "AAPL" "" "boom" 2 (Except.error "boom") rfl⟩

/-! ## Theorems about NB1 attachment (C10) -/

/-- C10: on a signal without an nb1 key, attach_nb1 sets exactly the new
key nb1 and leaves every other key of the signal unchanged. -/
theorem C10_attach_nb1_frame (s : Signal) (h : s.nb1 = none) :
    (attach_nb1 s).nb1.isSome = true
    ∧ (attach_nb1 s).nb1 ≠ s.nb1
    ∧ (attach_nb1 s).ticker = s.ticker
    ∧ (attach_nb1 s).name = s.name
    ∧ (attach_nb1 s).anomaly = s.anomaly
    ∧ (attach_nb1 s).realtime_price = s.realtime_price
    ∧ (attach_nb1 s).macro_weight = s.macro_weight
    ∧ (attach_nb1 s).news = s.news
    ∧ (attach_nb1 s).score = s.score
    ∧ (attach_nb1 s).reason = s.reason
    ∧ (attach_nb1 s).error = s.error := by
  refine ⟨rfl, ?_, rfl, rfl, rfl, rfl, rfl, rfl, rfl, rfl, rfl⟩
  rw [h]
  simp [attach_nb1]

/-- Witness for C10 at a concrete fresh signal. -/
theorem C10_attach_nb1_frame_witness :
    ((attach_nb1 (Signal.mk "AAPL" "" none none none none 0 none none none)).nb1.isSome = true)
    ∧ (attach_nb1 (Signal.mk "AAPL" "" none none none none 0 none none none)).nb1
        ≠ (Signal.mk "AAPL" "" none none none none 0 none none none).nb1
    ∧ (attach_nb1 (Signal.mk "AAPL" "" none none none none 0 none none none)).ticker
        = (Signal.mk "AAPL" "" none none none none 0 none none none).ticker
    ∧ (attach_nb1 (Signal.mk "AAPL" "" none none none none 0 none none none)).name
        = (Signal.mk "AAPL" "" none none none none 0 none none none).name
    ∧ (attach_nb1 (Signal.mk "AAPL" "" none none none none 0 none none none)).anomaly
        = (Signal.mk "AAPL" "" none none none none 0 none none none).anomaly
    ∧ (attach_nb1 (Signal.mk "AAPL" "" none none none none 0 none none none)).realtime_price
        = (Signal.mk "AAPL" "" none none none none 0 none none none).realtime_price
    ∧ (attach_nb1 (Signal.mk "AAPL" "" none none none none 0 none none none)).macro_weight
        = (Signal.mk "AAPL" "" none none none none 0 none none none).macro_weight
    ∧ (attach_nb1 (Signal.mk "AAPL" "" none none none none 0 none none none)).news
        = (Signal.mk "AAPL" "" none none none none 0 none none none).news
    ∧ (attach_nb1 (Signal.mk "AAPL" "" none none none none 0 none none none)).score
        = (Signal.mk "AAPL" "" none none none none 0 none none none).score
    ∧ (attach_nb1 (Signal.mk "AAPL" "" none none none none 0 none none none)).reason
        = (Signal.mk "AAPL" "" none none none none 0 none none none).reason
    ∧ (attach_nb1 (Signal.mk "AAPL" "" none none none none 0 none none none)).error
        = (Signal.mk "AAPL" "" none none none none 0 none none none).error :=
  C10_attach_nb1_frame (Signal.mk "AAPL" "" none none none none 0 none none none) rfl

/-! ## QB2 fundamentals merge (brains/qb2/core.py, merge_fundamentals)

A vendor fundamentals dict is an association list in insertion order;
a value of none models the Python value None.  Membership in the
accumulating output dict is modelled by a lookup, and setting a fresh key
appends it (Python dicts preserve insertion order). -/

/-- First value stored under a key in an association list. -/
def lookupKey {α : Type} (k : String) : List (String × α) → Option α
  | [] => none
  | (k', v) :: rest => if k' = k then some v else lookupKey k rest

/-- Option fallback: the first operand when set, the second otherwise. -/
def firstOf {α : Type} (a b : Option α) : Option α :=
  match a with
  | some v => some v
  | none => b

/-- One source folded into the accumulated output: for each entry in
order, set out[k] = v only when v is not None and k is not already a key
of out. -/
def mergeSource {α : Type} (out : List (String × α)) :
    List (String × Option α) → List (String × α)
  | [] => out
  | (k, v) :: rest =>
      match v with
      | none => mergeSource out rest
      | some v' =>
          if (lookupKey k out).isSome then mergeSource out rest
          else mergeSource (out ++ [(k, v')]) rest

/-- merge_fundamentals over the sources in call order. -/
def merge_fundamentals {α : Type} (sources : List (List (String × Option α))) :
    List (String × α) :=
  sources.foldl mergeSource []

/-- First non-null value for a key inside a single source dict. -/
def firstSome {α : Type} (k : String) : List (String × Option α) → Option α
  | [] => none
  | (k', v) :: rest =>
      match v with
      | some v' => if k' = k then some v' else firstSome k rest
      | none => firstSome k rest

/-- First non-null value for a key across the sources in provider order. -/
def firstNonNull {α : Type} (k : String) :
    List (List (String × Option α)) → Option α
  | [] => none
  | src :: rest => firstOf (firstSome k src) (firstNonNull k rest)

lemma lookupKey_append {α : Type} (k : String) (l1 l2 : List (String × α)) :
    lookupKey k (l1 ++ l2) = firstOf (lookupKey k l1) (lookupKey k l2) := by
  induction l1 with
  | nil => simp [lookupKey, firstOf]
  | cons kv rest ih =>
      by_cases h : kv.1 = k <;> simp [lookupKey, h, firstOf, ih]

lemma lookupKey_mergeSource {α : Type} (k : String)
    (src : List (String × Option α)) (out : List (String × α)) :
    lookupKey k (mergeSource out src)
      = firstOf (lookupKey k out) (firstSome k src) := by
  induction src generalizing out with
  | nil => cases h : lookupKey k out <;> simp [mergeSource, firstSome, firstOf, h]
  | cons kv rest ih =>
      obtain ⟨k', v⟩ := kv
      match v with
      | none => simpa [mergeSource, firstSome] using ih out
      | some v' =>
          by_cases hmem : (lookupKey k' out).isSome
          · rw [show mergeSource out ((k', some v') :: rest)
                  = mergeSource out rest by simp [mergeSource, hmem]]
            rw [ih out]
            by_cases hk : k' = k
            · subst hk
              obtain ⟨w, hw⟩ := Option.isSome_iff_exists.mp hmem
              simp [firstSome, firstOf, hw]
            · simp [firstSome, hk]
          · rw [show mergeSource out ((k', some v') :: rest)
                  = mergeSource (out ++ [(k', v')]) rest by simp [mergeSource, hmem]]
            rw [ih (out ++ [(k', v')])]
            rw [lookupKey_append]
            by_cases hk : k' = k
            · subst hk
              have hout : lookupKey k' out = none :=
                Option.not_isSome_iff_eq_none.mp hmem
              simp [firstSome, firstOf, hout, lookupKey]
            · simp only [firstSome, hk, if_neg, lookupKey]
              cases lookupKey k out <;> simp [firstOf]

lemma lookupKey_merge_fold {α : Type} (k : String)
    (sources : List (List (String × Option α))) (out : List (String × α)) :
    lookupKey k (sources.foldl mergeSource out)
      = firstOf (lookupKey k out) (firstNonNull k sources) := by
  induction sources generalizing out with
  | nil => cases h : lookupKey k out <;> simp [firstNonNull, firstOf, h]
  | cons src rest ih =>
      simp only [List.foldl_cons, firstNonNull]
      rw [ih, lookupKey_mergeSource]
      cases lookupKey k out <;> cases firstSome k src <;> simp [firstOf]

/-- C9: the merged fundamentals map every key to the first non-null value
the sources provide for it, scanning sources in provider order; and a key
set by a prefix of the sources is never overwritten by later sources. -/
theorem C9_merge_first_writer_wins {α : Type}
    (sources : List (List (String × Option α))) (k : String) :
    lookupKey k (merge_fundamentals sources) = firstNonNull k sources
    ∧ (∀ (pre post : List (List (String × Option α))) (v : α),
        sources = pre ++ post →
        lookupKey k (merge_fundamentals pre) = some v →
        lookupKey k (merge_fundamentals sources) = some v) := by
  constructor
  · rw [merge_fundamentals, lookupKey_merge_fold]
    simp [lookupKey, firstOf]
  · intro pre post v hsplit hpre
    subst hsplit
    rw [merge_fundamentals, List.foldl_append]
    rw [lookupKey_merge_fold]
    rw [merge_fundamentals] at hpre
    simp [hpre, firstOf]

/-- Witness for C9: two vendor dicts both carrying pe; the first
provider wins and the second never overwrites. -/
theorem C9_merge_first_writer_wins_witness :
    lookupKey "pe" (merge_fundamentals
        [[("pe", some (12 : ℚ)), ("pb", none)], [("pe", some 99)]])
      = firstNonNull "pe" [[("pe", some (12 : ℚ)), ("pb", none)], [("pe", some 99)]]
    ∧ lookupKey "pe" (merge_fundamentals
        [[("pe", some (12 : ℚ)), ("pb", none)], [("pe", some 99)]]) = some 12 :=
  ⟨(C9_merge_first_writer_wins
      [[("pe", some (12 : ℚ)), ("pb", none)], [("pe", some 99)]] "pe").1,
   (C9_merge_first_writer_wins
      [[("pe", some (12 : ℚ)), ("pb", none)], [("pe", some 99)]] "pe").2
      [[("pe", some (12 : ℚ)), ("pb", none)]] [[("pe", some 99)]] 12 rfl (by decide)⟩

/-! ## Stage 1 runner gate (runners/stage1_runner.py)

analyze_universe sorts its signal dicts by severity descending with the
stable Python sort (ties keep universe order); run_stage1 then walks the
sorted list, skips signals with a missing severity or zscore, admits a
signal when severity >= signal_score_min and abs(zscore) >=
zscore_abs_min, and breaks once max_signals_per_run signals are admitted.
-/

/-- The signal dicts of analyze_universe (sample_count is irrelevant to
the gate and omitted). -/
structure S1Sig where
  ticker : String
  zscore : Option ℚ
  severity : Option ℚ
  deriving DecidableEq, Repr

/-- The sort key s_key: severity with None treated as 0. -/
def s_key (s : S1Sig) : ℚ := s.severity.getD 0

/-- Stable insertion for a descending sort: an element is placed before
the first element whose key does not exceed it, so that elements earlier
in the input stay first on ties, exactly like the stable Python sorted
with reverse=True. -/
def insertBySeverity (x : S1Sig) : List S1Sig → List S1Sig
  | [] => [x]
  | y :: ys => if s_key y ≤ s_key x then x :: y :: ys else y :: insertBySeverity x ys

/-- sorted(signals, key=s_key, reverse=True). -/
def sortBySeverityDesc (l : List S1Sig) : List S1Sig := l.foldr insertBySeverity []

/-- The admission loop of run_stage1 over the already-sorted signals,
carrying the filtered list built so far. -/
def stage1_select (smin zmin : ℚ) (maxN : ℕ) :
    List S1Sig → List S1Sig → List S1Sig
  | [], filtered => filtered
  | s :: rest, filtered =>
      match s.severity, s.zscore with
      | some sev, some z =>
          let filtered' := if smin ≤ sev ∧ zmin ≤ |z| then filtered ++ [s] else filtered
          if maxN ≤ filtered'.length then filtered'
          else stage1_select smin zmin maxN rest filtered'
      | _, _ => stage1_select smin zmin maxN rest filtered

/-- The admitted subset of a run: sort, then filter with cap. -/
def run_stage1_admitted (sigs : List S1Sig) (smin zmin : ℚ) (maxN : ℕ) :
    List S1Sig :=
  stage1_select smin zmin maxN (sortBySeverityDesc sigs) []

/-- The admission predicate of the loop body (both fields present and
both thresholds reached). -/
def passGate (smin zmin : ℚ) (s : S1Sig) : Bool :=
  match s.severity, s.zscore with
  | some sev, some z => decide (smin ≤ sev ∧ zmin ≤ |z|)
  | _, _ => false

/-! The gate rule exactly as the specification words it, for comparison:
candidates with |score| at or above the threshold, sorted by |score|
descending with ties broken by ticker lexical order, top N taken.  For
the runner records the score is the severity (None as 0), the same
quantity the source sorts by. -/

def claimKey (s : S1Sig) : ℚ := s.severity.getD 0

/-- Lexicographic order on character lists (the lexical ticker order of
the claim; Python string comparison is lexicographic by code point). -/
def lexLe : List Char → List Char → Bool
  | [], _ => true
  | _ :: _, [] => false
  | a :: as, b :: bs => if a < b then true else if b < a then false else lexLe as bs

def claimBefore (x y : S1Sig) : Bool :=
  decide (|claimKey y| < |claimKey x|) ||
    (decide (|claimKey x| = |claimKey y|) && lexLe x.ticker.data y.ticker.data)

def insertClaim (x : S1Sig) : List S1Sig → List S1Sig
  | [] => [x]
  | y :: ys => if claimBefore x y then x :: y :: ys else y :: insertClaim x ys

def claimSort (l : List S1Sig) : List S1Sig := l.foldr insertClaim []

/-- Admission exactly as the claim describes it. -/
def gate_per_claim (sigs : List S1Sig) (thr : ℚ) (maxN : ℕ) : List S1Sig :=
  (claimSort (sigs.filter (fun s => decide (thr ≤ |claimKey s|)))).take maxN

/-- C3 counterexample: two tied candidates in non-lexical universe order
with a cap of one.  The claimed rule admits the lexically first ticker
AAA; the code keeps the stable universe order and admits ZZZ. -/
theorem C3_gate_counterexample :
    run_stage1_admitted
        [S1Sig.mk "ZZZ" (some 2) (some 1), S1Sig.mk "AAA" (some 2) (some 1)]
        1 1 1
      = [S1Sig.mk "ZZZ" (some 2) (some 1)]
    ∧ gate_per_claim
        [S1Sig.mk "ZZZ" (some 2) (some 1), S1Sig.mk "AAA" (some 2) (some 1)]
        1 1
      = [S1Sig.mk "AAA" (some 2) (some 1)]
    ∧ S1Sig.mk "ZZZ" (some 2) (some 1) ≠ S1Sig.mk "AAA" (some 2) (some 1) := by
  refine ⟨?_, ?_, by decide⟩ <;> decide

lemma stage1_select_take (smin zmin : ℚ) (maxN : ℕ) (l acc : List S1Sig)
    (hacc : acc.length < maxN) :
    stage1_select smin zmin maxN l acc
      = acc ++ (l.filter (passGate smin zmin)).take (maxN - acc.length) := by
  induction l generalizing acc with
  | nil => simp [stage1_select]
  | cons s rest ih =>
      match hs : s.severity, hz : s.zscore with
      | some sev, some z =>
          by_cases hpass : smin ≤ sev ∧ zmin ≤ |z|
          · have hp : passGate smin zmin s = true := by
              simp [passGate, hs, hz, hpass]
            by_cases hfull : maxN ≤ acc.length + 1
            · have hlen : maxN - acc.length = 1 := by omega
              simp only [stage1_select, hs, hz, if_pos hpass]
              rw [if_pos (by simpa using hfull)]
              simp [List.filter_cons, hp, hlen]
            · have hlt : (acc ++ [s]).length < maxN := by
                simpa using by omega
              simp only [stage1_select, hs, hz, if_pos hpass]
              rw [if_neg (by simpa using hfull)]
              rw [ih (acc ++ [s]) hlt]
              have hlen : maxN - acc.length = (maxN - (acc.length + 1)) + 1 := by omega
              simp [List.filter_cons, hp, hlen, List.take_succ_cons]
          · have hp : passGate smin zmin s = false := by
              simp [passGate, hs, hz, hpass]
            simp only [stage1_select, hs, hz, if_neg hpass]
            rw [if_neg (by omega)]
            rw [ih acc hacc]
            simp [List.filter_cons, hp]
      | some sev, none =>
          have hp : passGate smin zmin s = false := by simp [passGate, hs, hz]
          simp only [stage1_select, hs, hz]
          rw [ih acc hacc]
          simp [List.filter_cons, hp]
      | none, _ =>
          have hp : passGate smin zmin s = false := by simp [passGate, hs]
          simp only [stage1_select, hs]
          rw [ih acc hacc]
          simp [List.filter_cons, hp]

/-- C3 amended: in run_qb1 a signal is a trigger iff its absolute score
reaches the score threshold (no cap is applied there); in run_stage1,
with a positive cap, the admitted subset is the first max_signals_per_run
signals of the severity-descending stable sort that pass both the
severity and the absolute z-score thresholds — ties keep universe order,
not ticker order. -/
theorem C3_gate_amended :
    (∀ (univ : List Entry) (fetch : String → Except String FetchData)
        (z_threshold score_threshold : ℚ) (dry_limit : ℕ) (s : Signal),
      s ∈ (run_qb1 univ fetch z_threshold score_threshold dry_limit).2
        ↔ s ∈ (run_qb1 univ fetch z_threshold score_threshold dry_limit).1
          ∧ score_threshold ≤ |s.score|)
    ∧ (∀ (sigs : List S1Sig) (smin zmin : ℚ) (maxN : ℕ), 1 ≤ maxN →
        run_stage1_admitted sigs smin zmin maxN
          = ((sortBySeverityDesc sigs).filter (passGate smin zmin)).take maxN) := by
  constructor
  · intro univ fetch z_threshold score_threshold dry_limit s
    simp [run_qb1, List.mem_filter]
  · intro sigs smin zmin maxN hmax
    rw [run_stage1_admitted, stage1_select_take smin zmin maxN _ [] (by simpa using hmax)]
    simp

/-- Witness for C3 amended at a singleton run. -/
theorem C3_gate_amended_witness :
    ((Signal.mk "AAPL" "" none none none none 0 none none none)
        ∈ (run_qb1 [] c7fetch 2 2 0).2
      ↔ (Signal.mk "AAPL" "" none none none none 0 none none none)
          ∈ (run_qb1 [] c7fetch 2 2 0).1
        ∧ (2 : ℚ) ≤ |(Signal.mk "AAPL" "" none none none none 0 none none none).score|)
    ∧ run_stage1_admitted [S1Sig.mk "ZZZ" (some 2) (some 1)] 1 1 1
        = ((sortBySeverityDesc [S1Sig.mk "ZZZ" (some 2) (some 1)]).filter
            (passGate 1 1)).take 1 :=
  ⟨C3_gate_amended.1 [] c7fetch 2 2 0 (Signal.mk "AAPL" "" none none none none 0 none none none),
   C3_gate_amended.2 [S1Sig.mk "ZZZ" (some 2) (some 1)] 1 1 1 (by norm_num)⟩

/-! ## Rolling z-scores (brains/qb1/core.py compute_price_anomaly and
runners/stage1_runner.py compute_zscore)

The branch conditions of both functions are exact rational tests (a
standard deviation is zero or positive exactly when the rational
variance is), so only the returned value lives in the reals. -/

/-- The z_score field of compute_price_anomaly: the most recent
anomaly_lookback closes, population standard deviation (ddof=0) of that
window, and (latest - mean) / std guarded by std > 0; every degenerate
case (empty series, window of fewer than 2 points, zero variance) is the
defined value 0.0.  The NaN test of the source (sigma truthy) never fires
on exact rationals and coincides with the positivity guard. -/
noncomputable def sigmaOf (recent : List ℚ) : ℝ :=
  if 1 < recent.length then Real.sqrt (popVar recent) else 0

noncomputable def compute_price_anomaly_z (lookback : ℕ) (closes : List ℚ) : ℝ :=
  if closes.isEmpty then 0
  else if 0 < sigmaOf (pyLast lookback closes) then
    (((pyLast lookback closes).getLast?.getD 0
        - listMean (pyLast lookback closes) : ℚ) : ℝ)
      / sigmaOf (pyLast lookback closes)
  else 0

/-- compute_zscore of the stage 1 runner: None when the series has fewer
than 3 points or zero (population) standard deviation, otherwise the
z-score of the last value against the whole series (no window). -/
noncomputable def compute_zscore (series : List ℚ) : Option ℝ :=
  if series.length < 3 then none
  else if Real.sqrt (popVar series) = 0 then none
  else some ((((series.getLast?.getD 0 - listMean series : ℚ) : ℝ))
      / Real.sqrt (popVar series))

lemma popVar_nonneg (l : List ℚ) : 0 ≤ popVar l := by
  unfold popVar
  apply div_nonneg
  · apply List.sum_nonneg
    intro x hx
    obtain ⟨y, _, rfl⟩ := List.mem_map.mp hx
    positivity
  · positivity

lemma popVar_single (x : ℚ) : popVar [x] = 0 := by
  simp [popVar, listMean]

lemma popVar_nil : popVar [] = 0 := by
  simp [popVar]

/-- A window of fewer than 2 points has zero variance. -/
lemma popVar_short {l : List ℚ} (h : l.length < 2) : popVar l = 0 := by
  match l, h with
  | [], _ => exact popVar_nil
  | [x], _ => exact popVar_single x

/-- C4 counterexample: the two-point series [1, 2] has 2 usable points
and positive variance, so the claimed computation returns its z-score
(and in no degenerate clause the value None); compute_zscore of the
stage 1 runner returns None for it. -/
theorem C4_zscore_counterexample :
    compute_zscore [1, 2] = none
    ∧ ([(1 : ℚ), 2]).length = 2
    ∧ 0 < popVar [(1 : ℚ), 2] := by
  refine ⟨?_, rfl, by norm_num [popVar, listMean]⟩
  rw [compute_zscore]
  norm_num

/-- C4 amended: the z_score of compute_price_anomaly behaves exactly as
claimed (most recent lookback-sized window, population std, 0.0 for
fewer than 2 usable points or zero variance, the quotient otherwise),
while compute_zscore of the stage 1 runner instead works on the whole
series with a 3-point minimum and returns None, not 0.0, in its
degenerate cases. -/
theorem C4_zscore_amended :
    (∀ (lookback : ℕ) (closes : List ℚ), 1 ≤ lookback →
      (pyLast lookback closes).length = min lookback closes.length)
    ∧ (∀ (lookback : ℕ) (closes : List ℚ),
        (pyLast lookback closes).length < 2 →
        compute_price_anomaly_z lookback closes = 0)
    ∧ (∀ (lookback : ℕ) (closes : List ℚ),
        popVar (pyLast lookback closes) = 0 →
        compute_price_anomaly_z lookback closes = 0)
    ∧ (∀ (lookback : ℕ) (closes : List ℚ),
        0 < popVar (pyLast lookback closes) →
        compute_price_anomaly_z lookback closes
          = (((pyLast lookback closes).getLast?.getD 0
                - listMean (pyLast lookback closes) : ℚ) : ℝ)
              / Real.sqrt (popVar (pyLast lookback closes)))
    ∧ (∀ series : List ℚ, series.length < 3 → compute_zscore series = none)
    ∧ (∀ series : List ℚ, popVar series = 0 → compute_zscore series = none)
    ∧ (∀ series : List ℚ, ¬ series.length < 3 → 0 < popVar series →
        compute_zscore series
          = some ((((series.getLast?.getD 0 - listMean series : ℚ) : ℝ))
              / Real.sqrt (popVar series))) := by
  have hpos : ∀ l : List ℚ, 0 < popVar l → (0 : ℝ) < Real.sqrt (popVar l) := by
    intro l hl
    apply Real.sqrt_pos.mpr
    exact_mod_cast hl
  refine ⟨?_, ?_, ?_, ?_, ?_, ?_, ?_⟩
  · intro lookback closes hlb
    rw [pyLast, if_neg (by omega)]
    simp [List.length_drop]
    omega
  · intro lookback closes hshort
    have hsig : sigmaOf (pyLast lookback closes) = 0 := by
      rw [sigmaOf, if_neg (by omega)]
    rw [compute_price_anomaly_z]
    by_cases hemp : closes.isEmpty
    · rw [if_pos hemp]
    · rw [if_neg hemp, if_neg (by rw [hsig]; norm_num)]
  · intro lookback closes hvar
    have hsig : sigmaOf (pyLast lookback closes) = 0 := by
      rw [sigmaOf]
      split
      · rw [hvar]; simp
      · rfl
    rw [compute_price_anomaly_z]
    by_cases hemp : closes.isEmpty
    · rw [if_pos hemp]
    · rw [if_neg hemp, if_neg (by rw [hsig]; norm_num)]
  · intro lookback closes hvar
    have hlen : 1 < (pyLast lookback closes).length := by
      by_contra hcon
      rw [popVar_short (by omega)] at hvar
      exact lt_irrefl 0 hvar
    have hne : ¬ closes.isEmpty := by
      intro hcon
      have : closes = [] := List.isEmpty_iff.mp hcon
      subst this
      have : pyLast lookback [] = [] := by
        rw [pyLast]; split <;> simp
      rw [this] at hlen
      simp at hlen
    have hsig : sigmaOf (pyLast lookback closes)
        = Real.sqrt (popVar (pyLast lookback closes)) := by
      rw [sigmaOf, if_pos hlen]
    rw [compute_price_anomaly_z, if_neg hne, if_pos (by rw [hsig]; exact hpos _ hvar),
      hsig]
  · intro series hshort
    rw [compute_zscore, if_pos hshort]
  · intro series hvar
    by_cases hshort : series.length < 3
    · rw [compute_zscore, if_pos hshort]
    · rw [compute_zscore, if_neg hshort, if_pos (by rw [hvar]; simp)]
  · intro series hshort hvar
    rw [compute_zscore, if_neg hshort, if_neg (ne_of_gt (hpos _ hvar))]

/-- Witness for C4 amended: the window-size equation at lookback 10 on a
3-point series, the short-window zero, and the None of compute_zscore on
a 2-point series. -/
theorem C4_zscore_amended_witness :
    (pyLast 10 [(1 : ℚ), 2, 3]).length = min 10 ([(1 : ℚ), 2, 3]).length
    ∧ compute_price_anomaly_z 10 [(5 : ℚ)] = 0
    ∧ compute_zscore [(1 : ℚ), 2] = none :=
  ⟨C4_zscore_amended.1 10 [(1 : ℚ), 2, 3] (by norm_num),
   C4_zscore_amended.2.1 10 [(5 : ℚ)] (by decide),
   C4_zscore_amended.2.2.2.2.1 [(1 : ℚ), 2] (by decide)⟩

/-! ## QB2 structure analysis (brains/qb2/core.py, compute_structure)

Pandas semantics mirrored here:
- rolling(k).mean()/std() of the last row is NaN (none) when fewer than k
  usable points exist in the window;
- a comparison against NaN is False, so the trend if/elif/else lands in
  the flat branch whenever either SMA is NaN;
- close.diff() has a NaN first element, so the rolling(14) mean of the
  gain/loss series at the last row is NaN exactly when the series is
  shorter than 15; when it is a number and the mean loss is zero, the
  source assigns the scalar nan to rs and then evaluates rs.iloc[-1],
  which raises AttributeError (a float has no iloc); this is the error
  branch of the model;
- division by a zero mean in the range compression is the only place the
  rational convention (x / 0 = 0) differs from the pandas inf, and it is
  unreachable for positive price series.
-/

/-- Pairwise differences: diff() without its NaN first element. -/
def diffs : List ℚ → List ℚ
  | [] => []
  | [_] => []
  | a :: b :: rest => (b - a) :: diffs (b :: rest)

/-- Simple period returns: pct_change() without its NaN first element. -/
def pctChanges : List ℚ → List ℚ
  | [] => []
  | [_] => []
  | a :: b :: rest => (b / a - 1) :: pctChanges (b :: rest)

def listMax : List ℚ → ℚ
  | [] => 0
  | x :: xs => xs.foldl max x

def listMin : List ℚ → ℚ
  | [] => 0
  | x :: xs => xs.foldl min x

/-- Last value of the rolling(14) mean of the loss series
(-delta.clip(upper=0)); meaningful when the series has at least 15
points. -/
def downMean14 (closes : List ℚ) : ℚ :=
  listMean ((pyLast 14 (diffs closes)).map (fun d => if d < 0 then -d else 0))

/-- Last value of the rolling(14) mean of the gain series
(delta.clip(lower=0)). -/
def upMean14 (closes : List ℚ) : ℚ :=
  listMean ((pyLast 14 (diffs closes)).map (fun d => if 0 < d then d else 0))

/-- RSI14 when the mean loss is a positive number. -/
def rsiVal (closes : List ℚ) : ℚ :=
  100 - 100 / (1 + upMean14 closes / downMean14 closes)

/-- The StructureProfile dict; none models both a missing key and a NaN
that the source converts to None. -/
structure StructureProfile where
  sma20 : Option ℚ
  sma50 : Option ℚ
  sma200 : Option ℚ
  vol20 : Option ℝ
  range_compression_20d : Option ℚ
  trend : Option String
  rsi14 : Option ℚ

/-- The empty dict returned for an empty history: every key absent. -/
def emptyProfile : StructureProfile :=
  { sma20 := none, sma50 := none, sma200 := none, vol20 := none
    range_compression_20d := none, trend := none, rsi14 := none }

/-- Last value of rolling(k).mean(): NaN (none) below k points. -/
def smaField (k : ℕ) (closes : List ℚ) : Option ℚ :=
  if k ≤ closes.length then some (listMean (pyLast k closes)) else none

/-- The pandas comparison of two possibly-NaN values: False unless both
are numbers and the first is smaller. -/
def optLt : Option ℚ → Option ℚ → Bool
  | some a, some b => decide (a < b)
  | _, _ => false

/-- The trend if/elif/else of compute_structure on the last SMA values.
-/
def trendString (sma50 sma200 : Option ℚ) : String :=
  if optLt sma200 sma50 then "uptrend"
  else if optLt sma50 sma200 then "downtrend"
  else "flat"

/-- float(np.sqrt(252) * ret.rolling(20).std().iloc[-1]) over the last 20
returns (sample std, the pandas default ddof=1). -/
noncomputable def vol20val (closes : List ℚ) : ℝ :=
  Real.sqrt 252 * Real.sqrt (sampleVar (pyLast 20 (pctChanges closes)))

/-- The profile built on the non-raising paths of compute_structure. -/
noncomputable def mkProfile (closes : List ℚ) (rsi : Option ℚ) : StructureProfile :=
  { sma20 := smaField 20 closes
    sma50 := smaField 50 closes
    sma200 := smaField 200 closes
    vol20 := if 20 < closes.length then some (vol20val closes) else none
    range_compression_20d :=
      if 10 < (pyLast 20 closes).length then
        some ((listMax (pyLast 20 closes) - listMin (pyLast 20 closes))
          / listMean (pyLast 20 closes))
      else none
    trend := some (trendString (smaField 50 closes) (smaField 200 closes))
    rsi14 := rsi }

/-- compute_structure: the empty dict on an empty history; otherwise the
profile, except that a well-defined zero mean loss at the last row makes
the source crash on rs.iloc[-1] (rs is then the scalar nan), modelled as
the error branch. -/
noncomputable def compute_structure (closes : List ℚ) :
    Except String StructureProfile :=
  if closes.isEmpty then Except.ok emptyProfile
  else if 15 ≤ closes.length then
    if downMean14 closes = 0 then Except.error "AttributeError"
    else Except.ok (mkProfile closes (some (rsiVal closes)))
  else Except.ok (mkProfile closes none)

/-- C5 counterexample: ten days of history leave both SMAs absent, yet
the produced profile carries the concrete trend value flat, not an
absent trend. -/
theorem C5_trend_counterexample :
    (compute_structure [1, 2, 3, 4, 5, 6, 7, 8, 9, 10]).map
        (fun p => (p.sma50, p.sma200, p.trend))
      = Except.ok (none, none, some "flat") := by
  rfl

/-- C5 amended: in every profile that compute_structure returns, the
trend is absent exactly for an empty history; with a non-empty history
the trend is flat whenever either SMA is absent (the NaN comparisons of
the source are False), and when both SMAs are present the trend compares
them as claimed. -/
theorem C5_trend_amended (closes : List ℚ) (p : StructureProfile)
    (h : compute_structure closes = Except.ok p) :
    (p.trend = none ↔ closes = [])
    ∧ (closes ≠ [] → (p.sma50 = none ∨ p.sma200 = none) → p.trend = some "flat")
    ∧ (∀ a b : ℚ, p.sma50 = some a → p.sma200 = some b →
        p.trend = some (if b < a then "uptrend"
          else if a < b then "downtrend" else "flat")) := by
  rw [compute_structure] at h
  by_cases hemp : closes.isEmpty
  · rw [if_pos hemp] at h
    have hp : emptyProfile = p := by
      injection h
    subst hp
    have hnil : closes = [] := by simpa using hemp
    subst hnil
    refine ⟨by simp [emptyProfile], fun h' => absurd rfl h', ?_⟩
    intro a b h50
    simp [emptyProfile] at h50
  · have hne : closes ≠ [] := by simpa using hemp
    rw [if_neg hemp] at h
    have hmk : ∃ r, p = mkProfile closes r := by
      by_cases h15 : 15 ≤ closes.length
      · rw [if_pos h15] at h
        by_cases hdm : downMean14 closes = 0
        · rw [if_pos hdm] at h
          exact absurd h (by simp)
        · rw [if_neg hdm] at h
          exact ⟨some (rsiVal closes), by injection h with h'; exact h'.symm⟩
      · rw [if_neg h15] at h
        exact ⟨none, by injection h with h'; exact h'.symm⟩
    obtain ⟨r, rfl⟩ := hmk
    refine ⟨by simp [mkProfile, hne], ?_, ?_⟩
    · intro _ hor
      show some (trendString (smaField 50 closes) (smaField 200 closes)) = some "flat"
      rcases hor with h50 | h200
      · have : smaField 50 closes = none := h50
        simp [trendString, optLt, this]
      · have : smaField 200 closes = none := h200
        cases hv : smaField 50 closes <;> simp [trendString, optLt, this, hv]
    · intro a b h50 h200
      show some (trendString (smaField 50 closes) (smaField 200 closes)) = _
      have h50' : smaField 50 closes = some a := h50
      have h200' : smaField 200 closes = some b := h200
      by_cases hba : b < a
      · simp [trendString, optLt, h50', h200', hba]
      · by_cases hab : a < b <;> simp [trendString, optLt, h50', h200', hba, hab]

/-- Witness for C5 amended at the empty history. -/
theorem C5_trend_amended_witness :
    emptyProfile.trend = none ↔ ([] : List ℚ) = [] :=
  (C5_trend_amended [] emptyProfile rfl).1

/-- C6: the RSI guard of compute_structure assigns the scalar nan to rs
and then dereferences rs.iloc[-1], so fifteen strictly rising closes (a
zero mean loss) make compute_structure raise instead of degrading; the
10-day scenario itself behaves as claimed (sma20, vol20 and the range
compression all absent, no exception), and an empty history yields the
all-absent profile. -/
theorem C6_structure_crash :
    compute_structure [1, 2, 3, 4, 5, 6, 7, 8, 9, 10, 11, 12, 13, 14, 15]
      = Except.error "AttributeError"
    ∧ (compute_structure [1, 2, 3, 4, 5, 6, 7, 8, 9, 10]).map
        (fun p => (p.sma20, p.vol20, p.range_compression_20d))
      = Except.ok (none, none, none)
    ∧ compute_structure [] = Except.ok emptyProfile := by
  refine ⟨?_, by rfl, by rfl⟩
  rw [compute_structure]
  rw [if_neg (by decide), if_pos (by decide),
    if_pos (by norm_num [downMean14, diffs, pyLast, listMean])]

end Fia
